import Mathlib

/-!
Verification of the nutrition-checker app's core pipeline, shallowly embedded
from the repository sources (`Streamlitapp.py`, `stleamlit_app.py`,
`stleamlit_apps.py`, `streamlit_app.py`).  Numeric nutrient quantities are
modelled as exact rationals; captions and food identifiers as strings.
-/

namespace NutritionChecker

/-- A nutrient vector `{calories, protein, fat, carbohydrates}`,
as used throughout all app variants. -/
structure NutrientVector where
  calories : ℚ
  protein : ℚ
  fat : ℚ
  carbohydrates : ℚ
deriving DecidableEq, Repr

/-- The zero vector, the initial value of `total_nutrition_for_day` and
`last_added_nutrition` in every variant's session-state initialisation. -/
def zeroVec : NutrientVector := ⟨0, 0, 0, 0⟩

/-- Pointwise order on nutrient vectors. -/
def vle (a b : NutrientVector) : Prop :=
  a.calories ≤ b.calories ∧ a.protein ≤ b.protein ∧
  a.fat ≤ b.fat ∧ a.carbohydrates ≤ b.carbohydrates

instance (a b : NutrientVector) : Decidable (vle a b) := by
  unfold vle; infer_instance

/-- All four components non-negative. -/
def NutrientVector.Nonneg (v : NutrientVector) : Prop :=
  0 ≤ v.calories ∧ 0 ≤ v.protein ∧ 0 ≤ v.fat ∧ 0 ≤ v.carbohydrates

instance (v : NutrientVector) : Decidable v.Nonneg := by
  unfold NutrientVector.Nonneg; infer_instance

/-- `daily_needs = {"calories": 2000, "protein": 60, "fat": 50, "carbohydrates": 300}`,
identical in all four variants. -/
def daily_needs : NutrientVector := ⟨2000, 60, 50, 300⟩

/-- A catalog (the in-memory form of `nutrition_dict`) is an association list
from food identifier to nutrient vector; after CSV load its keys are unique. -/
abbrev Catalog := List (String × NutrientVector)

/-- Dictionary lookup `nutrition_dict[f]` / membership test `f in nutrition_dict`
on the association-list form. -/
def lookupFood : Catalog → String → Option NutrientVector
  | [], _ => none
  | (k, v) :: rest, f => if k = f then some v else lookupFood rest f

/-- `df.drop_duplicates(subset=['food'], keep='last')`: keep a row only when no
later row carries the same food identifier (so kept rows are exactly the last
occurrences, in their original relative order). -/
def dropDupKeepLast : Catalog → Catalog
  | [] => []
  | r :: rest =>
      if r.1 ∈ rest.map Prod.fst then dropDupKeepLast rest
      else r :: dropDupKeepLast rest

/-- Does `needle` occur as a prefix of `haystack` (character lists)? -/
def charPrefix : List Char → List Char → Bool
  | [], _ => true
  | _ :: _, [] => false
  | a :: as, b :: bs => a = b && charPrefix as bs

/-- Does `needle` occur as a contiguous substring of `haystack`?  This models
Python's permissive `needle in caption` containment test. -/
def charSub : List Char → List Char → Bool
  | [], needle => needle.isEmpty
  | h :: t, needle => charPrefix needle (h :: t) || charSub t needle

/-- `sub in hay` on strings. -/
def strContains (hay sub : String) : Bool :=
  charSub hay.data sub.data

/-- The `translate_hints` keyword dictionary of `Streamlitapp.py`
(English caption keyword → Japanese catalog identifier), in source order. -/
def translate_hints : List (String × String) :=
  [("croissant", "クロワッサン"), ("yogurt", "プレーンヨーグルト"),
   ("strawberry", "イチゴ"), ("raspberry", "ラズベリー"),
   ("toast", "トースト"), ("jam", "ジャム"), ("milk", "牛乳"),
   ("cereal", "シリアル"), ("boiled egg", "ゆで卵"), ("pancake", "パンケーキ"),
   ("french toast", "フレンチトースト"), ("bread", "食パン"), ("baguette", "バゲット"),
   ("rice", "ごはん"), ("chicken", "鶏肉"), ("spinach", "ほうれん草"),
   ("egg", "卵"), ("natto", "納豆"), ("miso soup", "味噌汁"),
   ("salmon", "鮭"), ("tofu", "豆腐"), ("pasta", "パスタ"), ("spaghetti", "パスタ"),
   ("steak", "ステーキ"), ("hamburger", "ハンバーグ"), ("curry", "カレーライス"),
   ("ramen", "ラーメン"), ("noodles", "ラーメン"), ("dumpling", "餃子"), ("gyoza", "餃子"),
   ("fried rice", "炒飯"), ("sandwich", "サンドイッチ"), ("katsudon", "カツ丼"),
   ("oyakodon", "親子丼"), ("gyudon", "牛丼"), ("beef bowl", "牛丼"),
   ("tempura", "天ぷら"), ("grilled fish", "焼き魚"), ("shrimp", "エビチリ"),
   ("tomato", "トマト"), ("broccoli", "ブロッコリー"), ("carrot", "人参"),
   ("cucumber", "きゅうり"), ("onion", "玉ねぎ"), ("potato", "じゃがいも"),
   ("salad", "サラダ"), ("banana", "バナナ"), ("apple", "リンゴ"), ("avocado", "アボカド"),
   ("chocolate", "チョコレート"), ("cookie", "クッキー"),
   ("ice cream", "アイスクリーム"), ("donut", "ドーナツ"), ("chips", "ポテトチップス")]

/-- The `keyword_map` dictionary of `stleamlit_app.py`, in source order. -/
def keyword_map : List (String × String) :=
  [("croissant", "クロワッサン"), ("bread", "食パン"), ("toast", "トースト"),
   ("yogurt", "プレーンヨーグルト"), ("berry", "ラズベリー"), ("berries", "ラズベリー"),
   ("strawberry", "イチゴ"), ("fruit", "イチゴ"), ("jam", "ジャム"),
   ("milk", "牛乳"), ("coffee", "コーヒー"), ("rice", "ごはん"),
   ("chicken", "鶏肉"), ("meat", "鶏肉"), ("egg", "卵"), ("salad", "サラダ"),
   ("soup", "味噌汁"), ("pasta", "パスタ"), ("pizza", "ピザ"), ("fish", "鮭"),
   ("curry", "カレーライス"), ("ramen", "ラーメン"), ("noodle", "ラーメン"),
   ("sandwich", "サンドイッチ"), ("burger", "ハンバーグ"), ("tofu", "豆腐")]

/-- The base keyword scan shared by `Streamlitapp.py` and `stleamlit_app.py`:
`for eng, jpn in hints.items(): if eng in caption: if jpn in available_foods:
detected.append(jpn)`. -/
def scanHints : List (String × String) → String → List String → List String
  | [], _, _ => []
  | (eng, jpn) :: rest, caption, foods =>
      (if strContains caption eng = true ∧ jpn ∈ foods then [jpn] else []) ++
        scanHints rest caption foods

/-- The compound-dish inference of `Streamlitapp.py` (lines 283-289): if the
caption contains "rice" and "egg", then "chicken"/"meat" adds 親子丼 and
"pork"/"cutlet" adds カツ丼 — with no check against `available_foods`. -/
def compoundScan (caption : String) : List String :=
  if strContains caption "rice" = true ∧ strContains caption "egg" = true then
    (if strContains caption "chicken" = true ∨ strContains caption "meat" = true
     then ["親子丼"] else []) ++
    (if strContains caption "pork" = true ∨ strContains caption "cutlet" = true
     then ["カツ丼"] else [])
  else []

/-- The full auto-analysis detection of `Streamlitapp.py`: base scan over
`translate_hints`, then the compound-dish rules, then `list(set(detected))`
(modelled as deduplication; the claims are about set membership). -/
def detectFoods (caption : String) (available_foods : List String) : List String :=
  (scanHints translate_hints caption available_foods ++ compoundScan caption).dedup

/-- The detection of `stleamlit_app.py` (lines 208-214): base scan over
`keyword_map` followed by `list(set(detected))`; no compound rules. -/
def keywordScan (caption : String) (available_foods : List String) : List String :=
  (scanHints keyword_map caption available_foods).dedup

/-- The filter of `streamlit_app.py` (line 542):
`[food for food in detected_foods if food in nutrition_dict]`. -/
def matching_foods (detected : List String) (cat : Catalog) : List String :=
  detected.filter (fun f => (lookupFood cat f).isSome)

/-- The qualitative advice categories produced by the advice chains. -/
inductive Advice where
  | noData
  | overTarget
  | proteinLow
  | carbsOnTrack
  | balanced
deriving DecidableEq, Repr

/-- The advice chain of `Streamlitapp.py` (lines 387-401), evaluated on the
daily total (`total_nutrition_for_day`).  The app instantiates the target at
the constant `daily_needs`; the comparison structure is kept verbatim:
`total['calories'] == 0`, `total['calories'] > daily_needs['calories']`,
`total['protein'] < daily_needs['protein'] * 0.5`,
`total['carbohydrates'] > daily_needs['carbohydrates'] * 0.8`, else balanced. -/
def advice_msg (total target : NutrientVector) : Advice :=
  if total.calories = 0 then .noData
  else if total.calories > target.calories then .overTarget
  else if total.protein < target.protein * (1/2) then .proteinLow
  else if total.carbohydrates > target.carbohydrates * (8/10) then .carbsOnTrack
  else .balanced

/-- The advice chain of `stleamlit_app.py` (lines 264-266): only three
branches (over-target, protein low, balanced); there is no zero-calories
branch and no carbohydrates branch. -/
def advice_msg_b (total target : NutrientVector) : Advice :=
  if total.calories > target.calories then .overTarget
  else if total.protein < target.protein * (1/2) then .proteinLow
  else .balanced

/-- The spec-side advice decision table (second definition for the refinement
comparison): written from the spec's words "(1) current calories == 0 → no
data yet; (2) current calories > target calories → over-target; (3) current
protein < 50% of target protein → protein low; (4) current carbohydrates >
80% of target carbohydrates → carbohydrates on track; (5) otherwise
balanced", first match wins. -/
def adviceCategory_spec (current target : NutrientVector) : Advice :=
  if current.calories = 0 then .noData
  else if target.calories < current.calories then .overTarget
  else if current.protein < target.protein / 2 then .proteinLow
  else if target.carbohydrates * (4/5) < current.carbohydrates then .carbsOnTrack
  else .balanced

/-- One radar-chart value of `Streamlitapp.py` line 367 (also
`stleamlit_app.py` line 256 and `stleamlit_apps.py` line 303):
`min((current[k] / target[k]) * 100, 120) if target[k] > 0 else 0`. -/
def radar_value (current target : ℚ) : ℚ :=
  if target > 0 then min (current / target * 100) 120 else 0

/-- One chart value of `streamlit_app.py` lines 716-721:
`min((total[k] / daily_needs[k]) * 100, 100)` (ceiling 100, no positivity
guard since `daily_needs` is a fixed positive constant). -/
def chart_value (current target : ℚ) : ℚ :=
  min (current / target * 100) 100

/-- A stored meal record as streamed back from the record store:
`{meal_type, timestamp, nutrients}` (timestamps as naturals, with
`data.get("timestamp", 0)` defaulting handled by the caller supplying 0). -/
structure MealRecord where
  meal_type : String
  timestamp : Nat
  nutrients : NutrientVector
deriving DecidableEq, Repr

/-- The history view is a finite map from meal type to the retained record. -/
abbrev HistoryView := String → Option MealRecord

/-- Fold of `streamlit_app.py` `load_nutrition_data` (lines 243-259, same as
`stleamlit_apps.py` lines 108-121) over the streamed documents:
`if meal_type not in history_data or data.get("timestamp", 0) >
history_data[meal_type].get("timestamp", 0): history_data[meal_type] = data`. -/
def stepA (d : MealRecord) (h : HistoryView) : HistoryView :=
  fun mt =>
    if mt = d.meal_type then
      match h mt with
      | none => some d
      | some prev => if prev.timestamp < d.timestamp then some d else some prev
    else h mt

def loadAuxA : List MealRecord → HistoryView → HistoryView
  | [], h => h
  | d :: rest, h => loadAuxA rest (stepA d h)

/-- `load_nutrition_data` of `streamlit_app.py` / `stleamlit_apps.py`. -/
def load_history_maxTs (docs : List MealRecord) : HistoryView :=
  loadAuxA docs (fun _ => none)

/-- Fold of `Streamlitapp.py` `load_nutrition_data` (lines 81-93, same as
`stleamlit_app.py` lines 72-84): `history_data[meal_type] = data`
unconditionally, so the record streamed last wins. -/
def stepB (d : MealRecord) (h : HistoryView) : HistoryView :=
  fun mt => if mt = d.meal_type then some d else h mt

def loadAuxB : List MealRecord → HistoryView → HistoryView
  | [], h => h
  | d :: rest, h => loadAuxB rest (stepB d h)

/-- `load_nutrition_data` of `Streamlitapp.py` / `stleamlit_app.py`. -/
def load_history_lastWrite (docs : List MealRecord) : HistoryView :=
  loadAuxB docs (fun _ => none)

/-- One step of the meal-summation loops (`streamlit_app.py` lines 628-632,
`Streamlitapp.py` lines 321-323): `if food in nutrition_dict: for key:
acc[key] += nutrition_dict[food].get(key, 0)`. -/
def addFood (cat : Catalog) (acc : NutrientVector) (f : String) : NutrientVector :=
  match lookupFood cat f with
  | some n => ⟨acc.calories + n.calories, acc.protein + n.protein,
               acc.fat + n.fat, acc.carbohydrates + n.carbohydrates⟩
  | none => acc

/-- `sumFoods`: the per-meal summation loop starting from the zero vector. -/
def sumFoods (foods : List String) (cat : Catalog) : NutrientVector :=
  foods.foldl (addFood cat) zeroVec

/-- `accumulate`: folding a meal vector into the running daily total
(`for key in total_nutrition_for_day: total[key] += meal[key]`). -/
def accumulate (total meal : NutrientVector) : NutrientVector :=
  ⟨total.calories + meal.calories, total.protein + meal.protein,
   total.fat + meal.fat, total.carbohydrates + meal.carbohydrates⟩

/-- The session state of `streamlit_app.py` (`st.session_state` fields used
by calculation, save, reset and history display), plus the persisted record
store it writes to. -/
structure Session where
  total_nutrition_for_day : NutrientVector
  last_added_nutrition : NutrientVector
  last_selected_meal_type : String
  data_added : Bool
  detected_foods : List String
  manual_mode : Bool
  auth_ready : Bool
  user_id : String
  history : HistoryView
  store : List MealRecord

/-- `save_nutrition_data` of `streamlit_app.py` (lines 199-228).  The
external Firestore write (`doc_ref.set`) may throw; `setOk` tells whether it
succeeds, and `now` is the server timestamp it would assign.  The returned
Bool is whether an error was reported (`st.error`).  On `not auth_ready` the
function reports and returns; on a write exception it reports in the
`except` branch without having touched the session; on success it appends
the record and reloads the history view. -/
def save_nutrition_data (s : Session) (meal_type : String)
    (nutrition : NutrientVector) (now : Nat) (setOk : Bool) : Session × Bool :=
  if s.auth_ready = false then (s, true)
  else if setOk then
    ({ s with store := s.store ++ [⟨meal_type, now, nutrition⟩],
              history := load_history_maxTs (s.store ++ [⟨meal_type, now, nutrition⟩]) },
     false)
  else (s, true)

/-- The reset handler of `streamlit_app.py` (lines 655-672, the button
labelled 合計をリセット): zero the daily total and last-meal vector, clear
`data_added`, clear `detected_foods`, leave `manual_mode = False`. -/
def reset_day (s : Session) : Session :=
  { s with total_nutrition_for_day := zeroVec,
           last_added_nutrition := zeroVec,
           data_added := false,
           detected_foods := [],
           manual_mode := false }

/-- The reset handler of `Streamlitapp.py` (lines 343-346) and
`stleamlit_app.py` (lines 250-253): zero the daily total and clear
`data_added` only. -/
def reset_day_b (s : Session) : Session :=
  { s with total_nutrition_for_day := zeroVec, data_added := false }

/-- The built-in fallback catalog of the CSV loaders:
`{"ごはん": {"calories": 168, "protein": 2.5, "fat": 0.3, "carbohydrates": 37.1}}`. -/
def default_catalog : Catalog :=
  [("ごはん", ⟨168, 2.5, 0.3, 37.1⟩)]

/- ------------------------------------------------------------------ -/
/- Helper lemmas                                                      -/
/- ------------------------------------------------------------------ -/

lemma mem_scanHints (hints : List (String × String)) (caption : String)
    (foods : List String) (f : String) (hf : f ∈ scanHints hints caption foods) :
    f ∈ foods := by
  induction hints with
  | nil => simp [scanHints] at hf
  | cons p rest ih =>
      obtain ⟨eng, jpn⟩ := p
      simp only [scanHints] at hf
      rcases List.mem_append.mp hf with h | h
      · by_cases hc : strContains caption eng = true ∧ jpn ∈ foods
        · rw [if_pos hc] at h
          simp only [List.mem_singleton] at h
          subst h
          exact hc.2
        · rw [if_neg hc] at h
          simp at h
      · exact ih h

lemma mem_compoundScan (caption : String) (f : String)
    (hf : f ∈ compoundScan caption) : f = "親子丼" ∨ f = "カツ丼" := by
  unfold compoundScan at hf
  by_cases h12 : strContains caption "rice" = true ∧ strContains caption "egg" = true
  · rw [if_pos h12] at hf
    rcases List.mem_append.mp hf with h | h
    · by_cases h3 : strContains caption "chicken" = true ∨ strContains caption "meat" = true
      · rw [if_pos h3] at h
        simp only [List.mem_singleton] at h
        exact Or.inl h
      · rw [if_neg h3] at h
        simp at h
    · by_cases h4 : strContains caption "pork" = true ∨ strContains caption "cutlet" = true
      · rw [if_pos h4] at h
        simp only [List.mem_singleton] at h
        exact Or.inr h
      · rw [if_neg h4] at h
        simp at h
  · rw [if_neg h12] at hf
    simp at hf

/- ------------------------------------------------------------------ -/
/- C1                                                                 -/
/- ------------------------------------------------------------------ -/

/-- C1, counterexample: with the built-in fallback catalog (identifiers
`["ごはん"]`) the caption "rice egg chicken" makes the compound 親子丼 rule
fire, and 親子丼 is added to the detection result although it is absent from
the active catalog — refuting the claim that no identifier absent from the
catalog is ever added. -/
theorem detect_subset_counterexample :
    ("親子丼" ∈ detectFoods "rice egg chicken" ["ごはん"]) ∧
    "親子丼" ∉ (["ごはん"] : List String) := by decide

/-- C1, amended: every identifier in the detection result of
`Streamlitapp.py` is either in the active catalog or is one of the two
compound-dish identifiers 親子丼 / カツ丼, which the compound rules append
without a catalog check; the base keyword scan of `stleamlit_app.py` and the
`matching_foods` filter of `streamlit_app.py` add catalog members only. -/
theorem detect_subset_amended :
    (∀ (caption : String) (foods : List String) (f : String),
        f ∈ detectFoods caption foods →
        f ∈ foods ∨ f = "親子丼" ∨ f = "カツ丼") ∧
    (∀ (caption : String) (foods : List String) (f : String),
        f ∈ keywordScan caption foods → f ∈ foods) ∧
    (∀ (detected : List String) (cat : Catalog) (f : String),
        f ∈ matching_foods detected cat → (lookupFood cat f).isSome = true) := by
  refine ⟨?_, ?_, ?_⟩
  · intro caption foods f hf
    unfold detectFoods at hf
    rw [List.mem_dedup] at hf
    rcases List.mem_append.mp hf with h | h
    · exact Or.inl (mem_scanHints _ _ _ _ h)
    · exact Or.inr (mem_compoundScan _ _ h)
  · intro caption foods f hf
    unfold keywordScan at hf
    rw [List.mem_dedup] at hf
    exact mem_scanHints _ _ _ _ hf
  · intro detected cat f hf
    unfold matching_foods at hf
    exact (List.mem_filter.mp hf).2

/-- C1, witness for the amended theorem at a concrete input. -/
theorem detect_subset_amended_witness :
    ("ごはん" ∈ detectFoods "rice egg chicken" ["ごはん"]) ∧
    ("ごはん" ∈ (["ごはん"] : List String) ∨
      "ごはん" = "親子丼" ∨ "ごはん" = "カツ丼") :=
  ⟨by decide, detect_subset_amended.1 "rice egg chicken" ["ごはん"] "ごはん" (by decide)⟩

/- ------------------------------------------------------------------ -/
/- C4                                                                 -/
/- ------------------------------------------------------------------ -/

/-- C4, counterexample: the claim's clause "each rule adds its identifier
only if the identifier exists in the catalog" is false — the カツ丼 rule
fires on "rice egg pork" and adds カツ丼 although the active catalog
(the fallback `["ごはん"]`) does not contain it. -/
theorem compound_rule_counterexample :
    ("カツ丼" ∈ detectFoods "rice egg pork" ["ごはん"]) ∧
    "カツ丼" ∉ (["ごはん"] : List String) := by decide

/-- C4, amended: for every lower-cased text containing "rice", "egg" and
"chicken" or "meat", and for EVERY catalog (containment of 親子丼 is not
required, because the rule performs no catalog check), the detection result
includes 親子丼 even though no single keyword names it. -/
theorem compound_rule_amended (caption : String) (foods : List String)
    (h1 : strContains caption "rice" = true)
    (h2 : strContains caption "egg" = true)
    (h3 : strContains caption "chicken" = true ∨ strContains caption "meat" = true) :
    "親子丼" ∈ detectFoods caption foods := by
  unfold detectFoods
  rw [List.mem_dedup]
  apply List.mem_append_right
  unfold compoundScan
  rw [if_pos ⟨h1, h2⟩, if_pos h3]
  exact List.mem_append_left _ (by simp)

/-- C4, witness: the spec's own example caption fires the 親子丼 rule. -/
theorem compound_rule_amended_witness :
    (strContains "a bowl of rice with egg and chicken on top" "rice" = true) ∧
    ("親子丼" ∈ detectFoods "a bowl of rice with egg and chicken on top"
        ["ごはん", "親子丼"]) :=
  ⟨by decide,
   compound_rule_amended "a bowl of rice with egg and chicken on top"
     ["ごはん", "親子丼"] (by decide) (by decide) (Or.inl (by decide))⟩

/- ------------------------------------------------------------------ -/
/- C2                                                                 -/
/- ------------------------------------------------------------------ -/

/-- C2, counterexample: in the `stleamlit_app.py` variant the advice chain
has no zero-calories branch, so the all-zero current vector against the
daily target yields the protein-low category, not "no data yet" — refuting
the claim that the chain's step (1) applies in every variant. -/
theorem advice_chain_counterexample :
    advice_msg_b zeroVec daily_needs = Advice.proteinLow ∧
    Advice.proteinLow ≠ Advice.noData := by
  constructor
  · norm_num [advice_msg_b, zeroVec, daily_needs]
  · decide

/-- C2, amended: the `Streamlitapp.py` advice chain coincides with the
spec's five-step decision table (first match wins, evaluated on the daily
total); in particular all-zero current yields "no data yet" for every
target, and calories over a non-negative target yields "over-target".  The
`stleamlit_app.py` variant omits steps (1) and (4), so there the all-zero
current vector yields "protein low" whenever the target protein is
positive. -/
theorem advice_chain_amended :
    (∀ c t : NutrientVector, advice_msg c t = adviceCategory_spec c t) ∧
    (∀ t : NutrientVector, advice_msg zeroVec t = Advice.noData) ∧
    (∀ c t : NutrientVector, 0 ≤ t.calories → t.calories < c.calories →
        advice_msg c t = Advice.overTarget) ∧
    (∀ t : NutrientVector, 0 ≤ t.calories → 0 < t.protein →
        advice_msg_b zeroVec t = Advice.proteinLow) := by
  refine ⟨?_, ?_, ?_, ?_⟩
  · intro c t
    unfold advice_msg adviceCategory_spec
    have h1 : t.protein * (1/2) = t.protein / 2 := by ring
    have h2 : t.carbohydrates * (8/10) = t.carbohydrates * (4/5) := by ring
    rw [h1, h2]
  · intro t
    simp [advice_msg, zeroVec]
  · intro c t h0 hlt
    unfold advice_msg
    rw [if_neg (ne_of_gt (lt_of_le_of_lt h0 hlt)), if_pos hlt]
  · intro t h0 hp
    unfold advice_msg_b
    rw [if_neg, if_pos]
    · show zeroVec.protein < t.protein * (1/2)
      show (0 : ℚ) < t.protein * (1/2)
      linarith
    · show ¬ zeroVec.calories > t.calories
      show ¬ t.calories < (0 : ℚ)
      exact not_lt.mpr h0

/-- C2, witness for the amended theorem: calories 2500 against the daily
target 2000 yields the over-target category. -/
theorem advice_chain_amended_witness :
    ((0 : ℚ) ≤ daily_needs.calories ∧ daily_needs.calories < (2500 : ℚ)) ∧
    advice_msg ⟨2500, 60, 50, 300⟩ daily_needs = Advice.overTarget :=
  ⟨⟨by norm_num [daily_needs], by norm_num [daily_needs]⟩,
   advice_chain_amended.2.2.1 ⟨2500, 60, 50, 300⟩ daily_needs
     (by norm_num [daily_needs]) (by norm_num [daily_needs])⟩

/- ------------------------------------------------------------------ -/
/- C3                                                                 -/
/- ------------------------------------------------------------------ -/

/-- C3, counterexample: the `streamlit_app.py` chart evaluator clamps at
100, not 120 — at current protein 1000 against target 60 it returns 100,
refuting the claim that the returned percentage equals the ceiling 120 in
every variant. -/
theorem percentage_clamp_counterexample :
    chart_value 1000 60 = 100 ∧ (100 : ℚ) ≠ 120 := by
  constructor
  · unfold chart_value
    rw [min_eq_right (by norm_num)]
  · norm_num

/-- C3, amended: percentage = current/target × 100 when that value is below
the ceiling and target > 0, the ceiling when the ratio reaches it, and 0
when target is not positive; the ceiling is 120 in the radar-chart variants
(`Streamlitapp.py`, `stleamlit_app.py`, `stleamlit_apps.py`) but 100 in the
`streamlit_app.py` chart, so current protein 1000 against target 60 yields
120 under the former and 100 under the latter. -/
theorem percentage_clamp_amended :
    (∀ c t : ℚ, 0 < t → c / t * 100 ≤ 120 → radar_value c t = c / t * 100) ∧
    (∀ c t : ℚ, 0 < t → 120 ≤ c / t * 100 → radar_value c t = 120) ∧
    (∀ c t : ℚ, ¬ 0 < t → radar_value c t = 0) ∧
    radar_value 1000 60 = 120 ∧
    chart_value 1000 60 = 100 := by
  refine ⟨?_, ?_, ?_, ?_, ?_⟩
  case refine_4 =>
    unfold radar_value
    rw [if_pos (by norm_num), min_eq_right (by norm_num)]
  case refine_5 =>
    unfold chart_value
    rw [min_eq_right (by norm_num)]
  · intro c t ht hle
    unfold radar_value
    rw [if_pos ht]
    exact min_eq_left hle
  · intro c t ht hge
    unfold radar_value
    rw [if_pos ht]
    exact min_eq_right hge
  · intro c t ht
    unfold radar_value
    rw [if_neg ht]

/-- C3, witness for the amended theorem: 30 against target 100 stays below
the ceiling, so the radar value is the raw percentage. -/
theorem percentage_clamp_amended_witness :
    ((0 : ℚ) < 100 ∧ (30 : ℚ) / 100 * 100 ≤ 120) ∧
    radar_value 30 100 = 30 / 100 * 100 :=
  ⟨⟨by norm_num, by norm_num⟩,
   percentage_clamp_amended.1 30 100 (by norm_num) (by norm_num)⟩

/- ------------------------------------------------------------------ -/
/- C5                                                                 -/
/- ------------------------------------------------------------------ -/

lemma stepA_eq_none (d : MealRecord) (h : HistoryView) (mt : String)
    (hd : mt = d.meal_type) (hh : h mt = none) : stepA d h mt = some d := by
  unfold stepA
  rw [if_pos hd, hh]

lemma stepA_eq_some_lt (d : MealRecord) (h : HistoryView) (mt : String)
    (q : MealRecord) (hd : mt = d.meal_type) (hh : h mt = some q)
    (hq : q.timestamp < d.timestamp) : stepA d h mt = some d := by
  unfold stepA
  rw [if_pos hd, hh]
  show (if q.timestamp < d.timestamp then some d else some q) = some d
  rw [if_pos hq]

lemma stepA_eq_some_ge (d : MealRecord) (h : HistoryView) (mt : String)
    (q : MealRecord) (hd : mt = d.meal_type) (hh : h mt = some q)
    (hq : ¬ q.timestamp < d.timestamp) : stepA d h mt = some q := by
  unfold stepA
  rw [if_pos hd, hh]
  show (if q.timestamp < d.timestamp then some d else some q) = some q
  rw [if_neg hq]

lemma stepA_eq_other (d : MealRecord) (h : HistoryView) (mt : String)
    (hd : ¬ mt = d.meal_type) : stepA d h mt = h mt := by
  unfold stepA
  rw [if_neg hd]

lemma loadAuxA_max (docs : List MealRecord) :
    ∀ (h : HistoryView) (mt : String) (r : MealRecord),
      (r ∈ docs ∨ h mt = some r) → r.meal_type = mt →
      (∀ d ∈ docs, d.meal_type = mt → d ≠ r → d.timestamp < r.timestamp) →
      (∀ p, h mt = some p → p = r ∨ p.timestamp < r.timestamp) →
      loadAuxA docs h mt = some r := by
  induction docs with
  | nil =>
      intro h mt r hmem _hmt _hmax _hacc
      rcases hmem with h1 | h1
      · simp at h1
      · simpa [loadAuxA] using h1
  | cons d rest ih =>
      intro h mt r hmem hmt hmax hacc
      show loadAuxA rest (stepA d h) mt = some r
      have hDcase : ∀ hd : mt = d.meal_type, d = r ∨ d.timestamp < r.timestamp := by
        intro hd
        by_cases hdr : d = r
        · exact Or.inl hdr
        · exact Or.inr (hmax d (List.mem_cons_self d rest) hd.symm hdr)
      have hstep : ∀ p, stepA d h mt = some p → p = r ∨ p.timestamp < r.timestamp := by
        intro p hp
        by_cases hd : mt = d.meal_type
        · cases hh : h mt with
          | none =>
              rw [stepA_eq_none d h mt hd hh] at hp
              exact (Option.some.inj hp) ▸ hDcase hd
          | some q =>
              by_cases hq : q.timestamp < d.timestamp
              · rw [stepA_eq_some_lt d h mt q hd hh hq] at hp
                exact (Option.some.inj hp) ▸ hDcase hd
              · rw [stepA_eq_some_ge d h mt q hd hh hq] at hp
                exact (Option.some.inj hp) ▸ hacc q hh
        · rw [stepA_eq_other d h mt hd] at hp
          exact hacc p hp
      have hmem2 : r ∈ rest ∨ stepA d h mt = some r := by
        by_cases hdr : d = r
        · right
          have hd : mt = d.meal_type := by rw [hdr]; exact hmt.symm
          cases hh : h mt with
          | none => rw [stepA_eq_none d h mt hd hh, hdr]
          | some q =>
              rcases hacc q hh with hqr | hqlt
              · have hq : ¬ q.timestamp < d.timestamp := by
                  rw [hqr, hdr]
                  exact lt_irrefl r.timestamp
                rw [stepA_eq_some_ge d h mt q hd hh hq, hqr]
              · have hq : q.timestamp < d.timestamp := by
                  rw [hdr]
                  exact hqlt
                rw [stepA_eq_some_lt d h mt q hd hh hq, hdr]
        · rcases hmem with hmem | hmem
          · rcases List.mem_cons.mp hmem with h1 | h1
            · exact absurd h1.symm hdr
            · exact Or.inl h1
          · right
            by_cases hd : mt = d.meal_type
            · have hdlt : d.timestamp < r.timestamp :=
                hmax d (List.mem_cons_self d rest) hd.symm hdr
              exact stepA_eq_some_ge d h mt r hd hmem (not_lt.mpr (le_of_lt hdlt))
            · rw [stepA_eq_other d h mt hd]
              exact hmem
      exact ih (stepA d h) mt r hmem2 hmt
        (fun d2 hd2 => hmax d2 (List.mem_cons_of_mem d hd2)) hstep

lemma loadAuxB_append (l1 l2 : List MealRecord) (h : HistoryView) :
    loadAuxB (l1 ++ l2) h = loadAuxB l2 (loadAuxB l1 h) := by
  induction l1 generalizing h with
  | nil => rfl
  | cons d rest ih => exact ih (stepB d h)

/-- C5, counterexample: the `Streamlitapp.py` / `stleamlit_app.py` loader
keeps the record streamed last, not the one with the greatest timestamp:
streaming the timestamp-2 record before the timestamp-1 record leaves the
timestamp-1 record in the view. -/
theorem history_last_write_counterexample :
    load_history_lastWrite
        [⟨"朝食", 2, ⟨200, 2, 2, 20⟩⟩, ⟨"朝食", 1, ⟨100, 1, 1, 10⟩⟩] "朝食"
      = some ⟨"朝食", 1, ⟨100, 1, 1, 10⟩⟩ ∧
    (1 : Nat) < 2 := by
  constructor
  · rfl
  · decide

/-- C5, amended: the `streamlit_app.py` / `stleamlit_apps.py` loader does
keep, for each meal type, exactly the streamed record with the strictly
greatest timestamp, independent of stream order; the `Streamlitapp.py` /
`stleamlit_app.py` loader instead keeps the record streamed last for each
meal type (an order-dependent view). -/
theorem history_last_write_amended :
    (∀ (docs : List MealRecord) (mt : String) (r : MealRecord),
        r ∈ docs → r.meal_type = mt →
        (∀ d ∈ docs, d.meal_type = mt → d ≠ r → d.timestamp < r.timestamp) →
        load_history_maxTs docs mt = some r) ∧
    (∀ (docs : List MealRecord) (d : MealRecord) (mt : String),
        d.meal_type = mt → load_history_lastWrite (docs ++ [d]) mt = some d) := by
  constructor
  · intro docs mt r hmem hmt hmax
    exact loadAuxA_max docs _ mt r (Or.inl hmem) hmt hmax (fun p hp => by simp at hp)
  · intro docs d mt hmt
    unfold load_history_lastWrite
    rw [loadAuxB_append]
    show stepB d (loadAuxB docs fun _ => none) mt = some d
    unfold stepB
    rw [if_pos hmt.symm]

/-- C5, witness for the amended theorem: with the records streamed in
increasing-timestamp order, the max-timestamp loader retains the later
record. -/
theorem history_last_write_amended_witness :
    ((⟨"朝食", 2, ⟨200, 2, 2, 20⟩⟩ : MealRecord) ∈
        [(⟨"朝食", 1, ⟨100, 1, 1, 10⟩⟩ : MealRecord), ⟨"朝食", 2, ⟨200, 2, 2, 20⟩⟩]) ∧
    load_history_maxTs
        [⟨"朝食", 1, ⟨100, 1, 1, 10⟩⟩, ⟨"朝食", 2, ⟨200, 2, 2, 20⟩⟩] "朝食"
      = some ⟨"朝食", 2, ⟨200, 2, 2, 20⟩⟩ :=
  ⟨by decide,
   history_last_write_amended.1
     [⟨"朝食", 1, ⟨100, 1, 1, 10⟩⟩, ⟨"朝食", 2, ⟨200, 2, 2, 20⟩⟩] "朝食"
     ⟨"朝食", 2, ⟨200, 2, 2, 20⟩⟩ (by decide) (by decide) (by decide)⟩

/- ------------------------------------------------------------------ -/
/- C6                                                                 -/
/- ------------------------------------------------------------------ -/

lemma lookupFood_append (l1 l2 : Catalog) (f : String) :
    lookupFood (l1 ++ l2) f =
      match lookupFood l1 f with
      | some v => some v
      | none => lookupFood l2 f := by
  induction l1 with
  | nil => rfl
  | cons p rest ih =>
      obtain ⟨k, v⟩ := p
      by_cases hk : k = f
      · show (if k = f then some v else lookupFood (rest ++ l2) f) = _
        rw [if_pos hk]
        show _ = (match if k = f then some v else lookupFood rest f with
          | some v => some v
          | none => lookupFood l2 f)
        rw [if_pos hk]
      · show (if k = f then some v else lookupFood (rest ++ l2) f) = _
        rw [if_neg hk]
        show _ = (match if k = f then some v else lookupFood rest f with
          | some v => some v
          | none => lookupFood l2 f)
        rw [if_neg hk]
        exact ih

lemma lookupFood_eq_none (l : Catalog) (f : String)
    (hf : f ∉ l.map Prod.fst) : lookupFood l f = none := by
  induction l with
  | nil => rfl
  | cons p rest ih =>
      obtain ⟨k, v⟩ := p
      simp only [List.map_cons, List.mem_cons] at hf
      push_neg at hf
      show (if k = f then some v else lookupFood rest f) = none
      rw [if_neg (fun hk => hf.1 hk.symm)]
      exact ih hf.2

lemma dropDupKeepLast_keys_sub (l : Catalog) :
    ∀ f, f ∈ (dropDupKeepLast l).map Prod.fst → f ∈ l.map Prod.fst := by
  induction l with
  | nil => intro f hf; simp [dropDupKeepLast] at hf
  | cons r rest ih =>
      intro f hf
      unfold dropDupKeepLast at hf
      by_cases hr : r.1 ∈ rest.map Prod.fst
      · rw [if_pos hr] at hf
        exact List.mem_cons_of_mem _ (ih f hf)
      · rw [if_neg hr] at hf
        simp only [List.map_cons, List.mem_cons] at hf ⊢
        rcases hf with hf | hf
        · exact Or.inl hf
        · exact Or.inr (ih f hf)

lemma lookupFood_mem_some (l : Catalog) (f : String)
    (hf : f ∈ l.map Prod.fst) : ∃ w, lookupFood l f = some w := by
  induction l with
  | nil => simp at hf
  | cons p rest ih =>
      obtain ⟨k, v⟩ := p
      by_cases hk : k = f
      · refine ⟨v, ?_⟩
        show (if k = f then some v else lookupFood rest f) = some v
        rw [if_pos hk]
      · simp only [List.map_cons, List.mem_cons] at hf
        rcases hf with hf | hf
        · exact absurd hf.symm hk
        · obtain ⟨w, hw⟩ := ih hf
          refine ⟨w, ?_⟩
          show (if k = f then some v else lookupFood rest f) = some w
          rw [if_neg hk]
          exact hw

lemma dropDupKeepLast_lookup (l : Catalog) (f : String) :
    lookupFood (dropDupKeepLast l) f = lookupFood l.reverse f := by
  induction l with
  | nil => rfl
  | cons r rest ih =>
      obtain ⟨k, v⟩ := r
      unfold dropDupKeepLast
      simp only [List.reverse_cons]
      rw [lookupFood_append]
      by_cases hk : k = f
      · subst hk
        by_cases hr : k ∈ rest.map Prod.fst
        · rw [if_pos hr]
          have hrev : k ∈ rest.reverse.map Prod.fst := by
            rw [List.map_reverse]
            exact List.mem_reverse.mpr hr
          obtain ⟨w, hw⟩ := lookupFood_mem_some rest.reverse k hrev
          rw [ih, hw]
        · rw [if_neg hr]
          have hnone : lookupFood rest.reverse k = none := by
            apply lookupFood_eq_none
            rw [List.map_reverse]
            intro hmem
            exact hr (List.mem_reverse.mp hmem)
          show (if k = k then some v else lookupFood (dropDupKeepLast rest) k) = _
          rw [if_pos rfl, hnone]
          show _ = (if k = k then some v else lookupFood ([] : Catalog) k)
          rw [if_pos rfl]
      · have htail : ∀ res : Option NutrientVector,
            (match res with
              | some w => some w
              | none => lookupFood [(k, v)] f) = res ∨
            (res = none ∧
              (match res with
                | some w => some w
                | none => lookupFood [(k, v)] f) = none) := by
          intro res
          cases res with
          | some w => exact Or.inl rfl
          | none =>
              right
              refine ⟨rfl, ?_⟩
              show (if k = f then some v else lookupFood ([] : Catalog) f) = none
              rw [if_neg hk]
              rfl
        by_cases hr : k ∈ rest.map Prod.fst
        · rw [if_pos hr, ih]
          rcases htail (lookupFood rest.reverse f) with he | ⟨hn, he⟩
          · rw [he]
          · rw [he, hn]
        · rw [if_neg hr]
          show (if k = f then some v else lookupFood (dropDupKeepLast rest) f) = _
          rw [if_neg hk, ih]
          rcases htail (lookupFood rest.reverse f) with he | ⟨hn, he⟩
          · rw [he]
          · rw [he, hn]

lemma dropDupKeepLast_keys_nodup (l : Catalog) :
    ((dropDupKeepLast l).map Prod.fst).Nodup := by
  induction l with
  | nil => simp [dropDupKeepLast]
  | cons r rest ih =>
      unfold dropDupKeepLast
      by_cases hr : r.1 ∈ rest.map Prod.fst
      · rw [if_pos hr]
        exact ih
      · rw [if_neg hr]
        simp only [List.map_cons, List.nodup_cons]
        exact ⟨fun hmem => hr (dropDupKeepLast_keys_sub rest r.1 hmem), ih⟩

/-- C6: catalog construction (`drop_duplicates(subset=['food'], keep='last')`
followed by `set_index('food')`) deduplicates by identifier keeping the last
occurrence: after construction no two entries share an identifier, and when
a source table contains two rows with the same identifier (the second one
not shadowed by any later row with that identifier), the catalog maps the
identifier to the nutrient values of the later row. -/
theorem catalog_dedup_last :
    (∀ rows : Catalog, ((dropDupKeepLast rows).map Prod.fst).Nodup) ∧
    (∀ (pre mid post : Catalog) (f : String) (v1 v2 : NutrientVector),
        f ∉ post.map Prod.fst →
        lookupFood (dropDupKeepLast (pre ++ (f, v1) :: mid ++ (f, v2) :: post)) f
          = some v2) := by
  constructor
  · exact dropDupKeepLast_keys_nodup
  · intro pre mid post f v1 v2 hpost
    rw [dropDupKeepLast_lookup]
    have hrev : (pre ++ (f, v1) :: mid ++ (f, v2) :: post).reverse
        = post.reverse ++ (f, v2) :: (mid.reverse ++ (f, v1) :: pre.reverse) := by
      simp
    rw [hrev, lookupFood_append]
    have hnone : lookupFood post.reverse f = none := by
      apply lookupFood_eq_none
      rw [List.map_reverse]
      intro hmem
      exact hpost (List.mem_reverse.mp hmem)
    rw [hnone]
    show (if f = f then some v2
      else lookupFood (mid.reverse ++ (f, v1) :: pre.reverse) f) = some v2
    rw [if_pos rfl]

/-- C6, witness at a concrete two-row table with differing nutrient values
for ごはん. -/
theorem catalog_dedup_last_witness :
    ("ごはん" ∉ (([] : Catalog).map Prod.fst)) ∧
    lookupFood (dropDupKeepLast
        ([] ++ ("ごはん", ⟨168, 2.5, 0.3, 37.1⟩) :: [] ++
          ("ごはん", ⟨170, 3, 1, 38⟩) :: [])) "ごはん"
      = some ⟨170, 3, 1, 38⟩ :=
  ⟨by simp,
   catalog_dedup_last.2 [] [] [] "ごはん" ⟨168, 2.5, 0.3, 37.1⟩ ⟨170, 3, 1, 38⟩
     (by simp)⟩

/- ------------------------------------------------------------------ -/
/- C7                                                                 -/
/- ------------------------------------------------------------------ -/

lemma addFood_comm (cat : Catalog) (acc : NutrientVector) (f g : String) :
    addFood cat (addFood cat acc f) g = addFood cat (addFood cat acc g) f := by
  unfold addFood
  cases hf : lookupFood cat f with
  | none => rfl
  | some m =>
      cases hg : lookupFood cat g with
      | none => rfl
      | some n =>
          simp only [NutrientVector.mk.injEq]
          refine ⟨by ring, by ring, by ring, by ring⟩

lemma foldl_addFood_perm (cat : Catalog) :
    ∀ {l1 l2 : List String}, l1.Perm l2 →
      ∀ acc, l1.foldl (addFood cat) acc = l2.foldl (addFood cat) acc := by
  intro l1 l2 hperm
  induction hperm with
  | nil => intro acc; rfl
  | cons x _h ih =>
      intro acc
      simp only [List.foldl_cons]
      exact ih _
  | swap x y l =>
      intro acc
      simp only [List.foldl_cons]
      rw [addFood_comm]
  | trans _h1 _h2 ih1 ih2 =>
      intro acc
      rw [ih1, ih2]

/-- C7: `sumFoods` is order-independent — for every catalog and every two
identifier lists that are permutations of each other, the summed nutrient
vectors are equal. -/
theorem sumFoods_perm_invariant (cat : Catalog) (l1 l2 : List String)
    (h : l1.Perm l2) : sumFoods l1 cat = sumFoods l2 cat :=
  foldl_addFood_perm cat h zeroVec

/-- C7, witness at a concrete permuted pair of selections over the built-in
fallback catalog. -/
theorem sumFoods_perm_invariant_witness :
    (["ごはん", "卵", "ごはん"].Perm ["卵", "ごはん", "ごはん"]) ∧
    sumFoods ["ごはん", "卵", "ごはん"] default_catalog
      = sumFoods ["卵", "ごはん", "ごはん"] default_catalog :=
  ⟨by decide,
   sumFoods_perm_invariant default_catalog _ _ (by decide)⟩

/- ------------------------------------------------------------------ -/
/- C8                                                                 -/
/- ------------------------------------------------------------------ -/

lemma vle_trans {a b c : NutrientVector} (h1 : vle a b) (h2 : vle b c) :
    vle a c :=
  ⟨le_trans h1.1 h2.1, le_trans h1.2.1 h2.2.1,
   le_trans h1.2.2.1 h2.2.2.1, le_trans h1.2.2.2 h2.2.2.2⟩

lemma lookupFood_nonneg (cat : Catalog) (hcat : ∀ p ∈ cat, p.2.Nonneg)
    (f : String) (v : NutrientVector) (hv : lookupFood cat f = some v) :
    v.Nonneg := by
  induction cat with
  | nil => simp [lookupFood] at hv
  | cons p rest ih =>
      obtain ⟨k, w⟩ := p
      by_cases hk : k = f
      · have : some w = some v := by
          rw [← hv]
          show _ = (if k = f then some w else lookupFood rest f)
          rw [if_pos hk]
        rw [← Option.some.inj this]
        exact hcat (k, w) (List.mem_cons_self _ _)
      · apply ih (fun q hq => hcat q (List.mem_cons_of_mem _ hq))
        rw [← hv]
        show lookupFood rest f = (if k = f then some w else lookupFood rest f)
        rw [if_neg hk]

lemma addFood_ge (cat : Catalog) (hcat : ∀ p ∈ cat, p.2.Nonneg)
    (acc : NutrientVector) (f : String) : vle acc (addFood cat acc f) := by
  unfold addFood
  cases hf : lookupFood cat f with
  | none => exact ⟨le_refl _, le_refl _, le_refl _, le_refl _⟩
  | some n =>
      have hn := lookupFood_nonneg cat hcat f n hf
      exact ⟨le_add_of_nonneg_right hn.1, le_add_of_nonneg_right hn.2.1,
             le_add_of_nonneg_right hn.2.2.1, le_add_of_nonneg_right hn.2.2.2⟩

lemma foldl_addFood_ge (cat : Catalog) (hcat : ∀ p ∈ cat, p.2.Nonneg) :
    ∀ (l : List String) (acc : NutrientVector),
      vle acc (l.foldl (addFood cat) acc) := by
  intro l
  induction l with
  | nil => intro acc; exact ⟨le_refl _, le_refl _, le_refl _, le_refl _⟩
  | cons f rest ih =>
      intro acc
      exact vle_trans (addFood_ge cat hcat acc f) (ih (addFood cat acc f))

/-- C8: under the precondition that every catalog nutrient value is
non-negative, folding a meal into the daily total never decreases it —
`accumulate T (sumFoods sel cat)` is pointwise ≥ `T` — and if the daily
total is non-negative it stays non-negative. -/
theorem accumulate_monotone (T : NutrientVector) (cat : Catalog)
    (sel : List String) (hcat : ∀ p ∈ cat, p.2.Nonneg) :
    vle T (accumulate T (sumFoods sel cat)) ∧
    (T.Nonneg → (accumulate T (sumFoods sel cat)).Nonneg) := by
  have hm : (sumFoods sel cat).Nonneg := by
    have h := foldl_addFood_ge cat hcat sel zeroVec
    exact ⟨h.1, h.2.1, h.2.2.1, h.2.2.2⟩
  constructor
  · exact ⟨le_add_of_nonneg_right hm.1, le_add_of_nonneg_right hm.2.1,
           le_add_of_nonneg_right hm.2.2.1, le_add_of_nonneg_right hm.2.2.2⟩
  · intro hT
    exact ⟨add_nonneg hT.1 hm.1, add_nonneg hT.2.1 hm.2.1,
           add_nonneg hT.2.2.1 hm.2.2.1, add_nonneg hT.2.2.2 hm.2.2.2⟩

/-- C8, witness at the built-in fallback catalog and a concrete daily
total. -/
theorem accumulate_monotone_witness :
    (∀ p ∈ default_catalog, p.2.Nonneg) ∧
    vle ⟨100, 5, 3, 20⟩
      (accumulate ⟨100, 5, 3, 20⟩ (sumFoods ["ごはん"] default_catalog)) :=
  ⟨by norm_num [default_catalog, NutrientVector.Nonneg],
   (accumulate_monotone ⟨100, 5, 3, 20⟩ default_catalog ["ごはん"]
     (by norm_num [default_catalog, NutrientVector.Nonneg])).1⟩

/- ------------------------------------------------------------------ -/
/- C9                                                                 -/
/- ------------------------------------------------------------------ -/

/-- C9: a failed save is atomic for the session — whatever the session
state, a save whose store write fails reports an error and returns the
session unchanged (in particular the daily total and the computed last-meal
vector are untouched), and a subsequent retry with a succeeding write (on an
authenticated session) appends exactly the same record, so no recomputation
is needed. -/
theorem save_failure_atomic (s : Session) (mt : String)
    (n : NutrientVector) (now : Nat) :
    ((save_nutrition_data s mt n now false).1 = s ∧
     (save_nutrition_data s mt n now false).2 = true) ∧
    (s.auth_ready = true →
      (save_nutrition_data (save_nutrition_data s mt n now false).1
          mt n now true).1.store = s.store ++ [⟨mt, now, n⟩]) := by
  have hfail : (save_nutrition_data s mt n now false).1 = s ∧
      (save_nutrition_data s mt n now false).2 = true := by
    unfold save_nutrition_data
    by_cases ha : s.auth_ready = false
    · rw [if_pos ha]
      exact ⟨rfl, rfl⟩
    · rw [if_neg ha]
      exact ⟨rfl, rfl⟩
  refine ⟨hfail, ?_⟩
  intro ha
  rw [hfail.1]
  unfold save_nutrition_data
  rw [if_neg (by simp [ha]), if_pos rfl]

/-- C9, witness at a concrete authenticated session. -/
theorem save_failure_atomic_witness :
    ((⟨⟨168, 2.5, 0.3, 37.1⟩, ⟨168, 2.5, 0.3, 37.1⟩, "朝食", true, ["ごはん"],
        true, true, "local_developer_user", fun _ => none, []⟩ : Session).auth_ready
      = true) ∧
    (save_nutrition_data
        (save_nutrition_data
          ⟨⟨168, 2.5, 0.3, 37.1⟩, ⟨168, 2.5, 0.3, 37.1⟩, "朝食", true, ["ごはん"],
            true, true, "local_developer_user", fun _ => none, []⟩
          "朝食" ⟨168, 2.5, 0.3, 37.1⟩ 5 false).1
        "朝食" ⟨168, 2.5, 0.3, 37.1⟩ 5 true).1.store
      = [] ++ [⟨"朝食", 5, ⟨168, 2.5, 0.3, 37.1⟩⟩] :=
  ⟨rfl,
   (save_failure_atomic
     ⟨⟨168, 2.5, 0.3, 37.1⟩, ⟨168, 2.5, 0.3, 37.1⟩, "朝食", true, ["ごはん"],
       true, true, "local_developer_user", fun _ => none, []⟩
     "朝食" ⟨168, 2.5, 0.3, 37.1⟩ 5).2 rfl⟩

/- ------------------------------------------------------------------ -/
/- C10                                                                -/
/- ------------------------------------------------------------------ -/

/-- C10: both reset handlers set the running daily total to the all-zero
nutrient vector and clear the data-added flag, and both leave the loaded
history view, the user identifier and the persisted record store
unchanged. -/
theorem reset_frame (s : Session) :
    ((reset_day s).total_nutrition_for_day = zeroVec ∧
     (reset_day s).data_added = false ∧
     (reset_day s).history = s.history ∧
     (reset_day s).user_id = s.user_id ∧
     (reset_day s).store = s.store) ∧
    ((reset_day_b s).total_nutrition_for_day = zeroVec ∧
     (reset_day_b s).data_added = false ∧
     (reset_day_b s).history = s.history ∧
     (reset_day_b s).user_id = s.user_id ∧
     (reset_day_b s).store = s.store) :=
  ⟨⟨rfl, rfl, rfl, rfl, rfl⟩, ⟨rfl, rfl, rfl, rfl, rfl⟩⟩

end NutritionChecker
